import Mathlib

/-!
Shallow embedding of the SP-API transactions ingestion pipeline
(`validator.py`, `database.py`, `spapi_client.py`) and proofs of the
spec claims about it.

Modelling conventions:
* timestamps are integers counting microseconds since the Unix epoch
  (CPython datetimes have microsecond resolution);
* calendar dates are integers counting days since the Unix epoch;
* `decimal.Decimal` values are modelled by `PyDec` (finite coefficient
  and exponent, quiet NaN, signalling NaN, infinities); the sign of
  zero and NaN payload digits are not tracked, no claim depends on them;
* Python exceptions that escape a function are modelled by `Except`;
* the HTTP client is a function of a scripted list of responses and
  returns, besides its result, the trace of its observable effects
  (token-endpoint calls, requests, sleeps).
-/

namespace Spapi

/-! ## Clock / time utilities -/

def usPerSec : Int := 1000000

def usPerDay : Int := 86400000000

/-- Leap-year test of the proleptic Gregorian calendar (as used by
`datetime.date`). -/
def isLeap (y : Int) : Bool := y % 4 == 0 && (y % 100 != 0 || y % 400 == 0)

def daysInMonth (y m : Int) : Int :=
  if m = 2 then (if isLeap y then 29 else 28)
  else if m = 4 ∨ m = 6 ∨ m = 9 ∨ m = 11 then 30
  else 31

/-- Days since 1970-01-01 of the civil date `y-m-d` (proleptic Gregorian);
the standard era-based conversion. -/
def daysFromCivil (y m d : Int) : Int :=
  let y' := if m ≤ 2 then y - 1 else y
  let era := Int.fdiv y' 400
  let yoe := y' - era * 400
  let mp := Int.fmod (m + 9) 12
  let doy := Int.fdiv (153 * mp + 2) 5 + d - 1
  let doe := yoe * 365 + Int.fdiv yoe 4 - Int.fdiv yoe 100 + doy
  era * 146097 + doe - 719468

def digitsVal (cs : List Char) : Int :=
  cs.foldl (fun a c => a * 10 + ((c.toNat : Int) - 48)) 0

/-- The first `n` characters when they are all ASCII digits, as a number,
together with the rest of the input. -/
def takeDigits (n : Nat) (cs : List Char) : Option (Int × List Char) :=
  let pre := cs.take n
  if pre.length = n && pre.all Char.isDigit then some (digitsVal pre, cs.drop n)
  else none

/-- A naive-or-aware parsed datetime: microseconds since the epoch read as
if the wall-clock fields were UTC, and the explicit UTC offset when the
string carried one. -/
structure NaiveDT where
  us : Int
  offset : Option Int
  deriving DecidableEq, Repr

/-- The date part `YYYY-MM-DD` of the `datetime.fromisoformat` grammar,
returning epoch days and the unconsumed input. -/
def parseDatePart (cs : List Char) : Option (Int × List Char) :=
  match takeDigits 4 cs with
  | some (y, '-' :: cs1) =>
    (match takeDigits 2 cs1 with
     | some (m, '-' :: cs2) =>
       (match takeDigits 2 cs2 with
        | some (d, cs3) =>
          if 1 ≤ y ∧ 1 ≤ m ∧ m ≤ 12 ∧ 1 ≤ d ∧ d ≤ daysInMonth y m then
            some (daysFromCivil y m d, cs3)
          else none
        | _ => none)
     | _ => none)
  | _ => none

/-- Microseconds denoted by a fraction-digit run (the first six digits,
right-padded with zeros, as in CPython). -/
def fracUs (ds : List Char) : Int :=
  digitsVal (ds.take 6) * (10 : Int) ^ (6 - Nat.min 6 ds.length)

/-- The time part `HH:MM[:SS[.ffffff]]` of the `fromisoformat` grammar,
returning microseconds within the day and the unconsumed input. -/
def parseTimePart (cs : List Char) : Option (Int × List Char) :=
  match takeDigits 2 cs with
  | some (h, ':' :: cs1) =>
    (match takeDigits 2 cs1 with
     | some (mi, cs2) =>
       if h ≤ 23 ∧ mi ≤ 59 then
         match cs2 with
         | ':' :: cs3 =>
           (match takeDigits 2 cs3 with
            | some (s, cs4) =>
              if s ≤ 59 then
                match cs4 with
                | '.' :: cs5 =>
                  let ds := cs5.takeWhile Char.isDigit
                  if ds = [] then none
                  else some ((h * 3600 + mi * 60 + s) * usPerSec + fracUs ds,
                             cs5.dropWhile Char.isDigit)
                | _ => some ((h * 3600 + mi * 60 + s) * usPerSec, cs4)
              else none
            | _ => none)
         | _ => some ((h * 3600 + mi * 60) * usPerSec, cs2)
       else none
     | _ => none)
  | _ => none

/-- A trailing UTC-offset suffix `+HH:MM` / `-HH:MM` (the whole rest of the
input), in microseconds. -/
def parseOffsetPart (cs : List Char) : Option Int :=
  match cs with
  | sgn :: rest =>
    if sgn = '+' ∨ sgn = '-' then
      match takeDigits 2 rest with
      | some (oh, ':' :: r2) =>
        (match takeDigits 2 r2 with
         | some (om, []) =>
           if oh ≤ 23 ∧ om ≤ 59 then
             some ((if sgn = '-' then (-1 : Int) else 1) * ((oh * 60 + om) * 60 * usPerSec))
           else none
         | _ => none)
      | _ => none
    else none
  | [] => none

/-- Model of `datetime.datetime.fromisoformat` on the common grammar
`YYYY-MM-DD[<sep>HH:MM[:SS[.f+]][±HH:MM]]` (any single separator
character, as in CPython; offset seconds and other CPython 3.11
extensions are not modelled — no claim depends on them). -/
def pyFromIsoformat (s : String) : Option NaiveDT :=
  match parseDatePart s.data with
  | none => none
  | some (days, rest) =>
    match rest with
    | [] => some ⟨days * usPerDay, none⟩
    | _sep :: rest2 =>
      match parseTimePart rest2 with
      | none => none
      | some (tus, rest3) =>
        match rest3 with
        | [] => some ⟨days * usPerDay + tus, none⟩
        | _ =>
          match parseOffsetPart rest3 with
          | some off => some ⟨days * usPerDay + tus, some off⟩
          | none => none

/-- `str.replace("Z", "+00:00")`: every capital `Z` is replaced. -/
def replaceZ : List Char → List Char
  | [] => []
  | 'Z' :: rest => '+' :: '0' :: '0' :: ':' :: '0' :: '0' :: replaceZ rest
  | c :: rest => c :: replaceZ rest

/-- `_parse_iso_z` of `validator.py`: parse after replacing `Z`, then
`astimezone(timezone.utc)`.  A naive result is interpreted in the local
timezone, whose UTC offset (in microseconds) is the parameter
`localOff`; an aware result uses its own offset. -/
def parse_iso_z (localOff : Int) (s : String) : Option Int :=
  match pyFromIsoformat (String.mk (replaceZ s.data)) with
  | none => none
  | some dt => some (dt.us - dt.offset.getD localOff)

/-- `SPAPIClient._validate_iso8601_utc` succeeds exactly when
`fromisoformat` accepts the string after the `Z` replacement. -/
def validate_iso8601_utc (s : String) : Bool :=
  (pyFromIsoformat (String.mk (replaceZ s.data))).isSome

/-! ## `decimal.Decimal` model -/

/-- A `decimal.Decimal` value: `fin c e` denotes `c * 10 ^ e`; quiet NaN,
signalling NaN and infinities are separate constructors (the sign of an
infinity is `true` when negative).  The sign of a zero and NaN payload
digits are not tracked. -/
inductive PyDec where
  | fin : Int → Int → PyDec
  | nan : PyDec
  | snan : PyDec
  | inf : Bool → PyDec
  deriving DecidableEq, Repr

def asciiLower (c : Char) : Char :=
  if 'A' ≤ c ∧ c ≤ 'Z' then Char.ofNat (c.toNat + 32) else c

def pyWs (c : Char) : Bool :=
  c = ' ' || c = '\t' || c = '\n' || c = '\r' || c = '\x0b' || c = '\x0c'

def trimWs (cs : List Char) : List Char :=
  ((cs.dropWhile pyWs).reverse.dropWhile pyWs).reverse

def parseNatDigits (cs : List Char) : Option Int :=
  if cs ≠ [] ∧ cs.all Char.isDigit then some (digitsVal cs) else none

def parseSignedInt (cs : List Char) : Option Int :=
  match cs with
  | '+' :: rest => parseNatDigits rest
  | '-' :: rest => (parseNatDigits rest).map Int.neg
  | _ => parseNatDigits cs

/-- The numeric part of the `Decimal` string grammar:
`digits['.'digits] | '.'digits`, optionally followed by `[eE][±]digits`,
consuming the whole input; yields coefficient and exponent. -/
def parseUnsignedDec (cs : List Char) : Option (Int × Int) :=
  let ip := cs.takeWhile Char.isDigit
  let r1 := cs.dropWhile Char.isDigit
  let fpr : List Char × List Char :=
    match r1 with
    | '.' :: rest => (rest.takeWhile Char.isDigit, rest.dropWhile Char.isDigit)
    | _ => ([], r1)
  let fp := fpr.1
  let r2 := fpr.2
  if ip = [] ∧ fp = [] then none
  else
    let coeff := digitsVal (ip ++ fp)
    let fracLen : Int := fp.length
    match r2 with
    | [] => some (coeff, -fracLen)
    | e :: rest =>
      if e = 'e' ∨ e = 'E' then
        match parseSignedInt rest with
        | some ex => some (coeff, ex - fracLen)
        | none => none
      else none

/-- Model of the `decimal.Decimal` string constructor: surrounding
whitespace is stripped, an optional sign precedes either a numeric
literal or the case-insensitive keywords `inf`/`infinity`,
`nan[digits]`, `snan[digits]`.  `none` models a raised
`InvalidOperation` (CPython digit-group underscores are not modelled —
no claim depends on them). -/
def pyDecimalOfString (s : String) : Option PyDec :=
  let cs := trimWs s.data
  let sb : Bool × List Char :=
    match cs with
    | '+' :: r => (false, r)
    | '-' :: r => (true, r)
    | _ => (false, cs)
  let neg := sb.1
  let body := sb.2
  let lower := body.map asciiLower
  if lower = "inf".data ∨ lower = "infinity".data then some (.inf neg)
  else
    match lower with
    | 'n' :: 'a' :: 'n' :: rest =>
      if rest.all Char.isDigit then some .nan else none
    | 's' :: 'n' :: 'a' :: 'n' :: rest =>
      if rest.all Char.isDigit then some .snan else none
    | _ =>
      match parseUnsignedDec body with
      | some (c, e) => some (.fin (if neg then -c else c) e)
      | none => none

/-- `n / d` rounded half-to-even, for `d > 0` (the default
`ROUND_HALF_EVEN` of the decimal context). -/
def roundHalfEvenDiv (n d : Int) : Int :=
  let q := Int.fdiv n d
  let r := n - q * d
  if 2 * r < d then q
  else if 2 * r > d then q + 1
  else if q % 2 = 0 then q else q + 1

/-- Model of `x.quantize(Decimal("0.01"))` under the default context
(precision 28, `ROUND_HALF_EVEN`): a quiet NaN propagates; a signalling
NaN, an infinity, or a result coefficient longer than 28 digits raise
`InvalidOperation`, modelled by `none`. -/
def quantize2 : PyDec → Option PyDec
  | .nan => some .nan
  | .snan => none
  | .inf _ => none
  | .fin c e =>
    let c' : Int :=
      if 0 ≤ e + 2 then c * (10 : Int) ^ (e + 2).toNat
      else roundHalfEvenDiv c ((10 : Int) ^ (-(e + 2)).toNat)
    if c'.natAbs < 10 ^ 28 then some (.fin c' (-2)) else none

/-- `x > Decimal("0.00")`: ordering comparisons against a NaN signal
`InvalidOperation` (modelled by `none`). -/
def pyDecGtZero : PyDec → Option Bool
  | .nan => none
  | .snan => none
  | .inf neg => some (!neg)
  | .fin c _ => some (decide (0 < c))

/-- `str()` of a `Decimal`, in the fixed-point form CPython uses for
every value this pipeline can feed it (exponent `≤ 0`, adjusted exponent
`≥ -6`); positive exponents render in the `E+` form. -/
def pyDecStr : PyDec → String
  | .nan => "NaN"
  | .snan => "sNaN"
  | .inf neg => if neg then "-Infinity" else "Infinity"
  | .fin c e =>
    let sign := if c < 0 then "-" else ""
    let ds := (toString c.natAbs).data
    if e = 0 then sign ++ String.mk ds
    else if 0 < e then sign ++ String.mk ds ++ "E+" ++ toString e
    else
      let k := (-e).toNat
      let padded := List.replicate (k + 1 - ds.length) '0' ++ ds
      let ipLen := padded.length - k
      sign ++ String.mk (padded.take ipLen) ++ "." ++ String.mk (padded.drop ipLen)

/-! ## Normalizer (`normalize_transactions`) -/

/-- The `amount` field of a raw transaction: absent, present but not a
JSON object (the `isinstance(amount_obj, dict)` check fails), or an
object with optional `currencyCode` and `amount` members. -/
inductive AmountField where
  | absent
  | notDict
  | obj (currencyCode : Option String) (amount : Option String)
  deriving DecidableEq, Repr

structure Details where
  orderId : Option String
  reason : Option String
  deriving DecidableEq, Repr

/-- A raw transaction record as delivered inside the API payload.  The
record itself is kept verbatim as the `raw` column (in the source it is
serialised with `json.dumps` and re-parsed before storage; the model
keeps the value). -/
structure RawTx where
  transactionId : Option String
  postedDate : Option String
  type : Option String
  amount : AmountField
  marketplaceId : Option String
  details : Option Details
  deriving DecidableEq, Repr

structure ApiPayload where
  transactions : List RawTx
  deriving DecidableEq, Repr

/-- `amount_str not in (None, "")`, then `Decimal(...).quantize(...)`
with `(InvalidOperation, ValueError)` caught and mapped to `None`. -/
def normalizeAmount : Option String → Option PyDec
  | none => none
  | some s =>
    if s = "" then none
    else
      match pyDecimalOfString s with
      | none => none
      | some d =>
        match quantize2 d with
        | none => none
        | some q => some q

/-- One normalized row, as built by `normalize_transactions`. -/
structure NormRow where
  transaction_id : Option String
  posted_date_raw : Option String
  type : Option String
  currency_code : Option String
  amount : Option PyDec
  marketplace_id : Option String
  order_id : Option String
  reason : Option String
  raw : RawTx
  deriving DecidableEq, Repr

def normalizeOne (tx : RawTx) : NormRow :=
  let ca : Option String × Option String :=
    match tx.amount with
    | .obj cc a => (cc, a)
    | _ => (none, none)
  let details := tx.details.getD ⟨none, none⟩
  { transaction_id := tx.transactionId
    posted_date_raw := tx.postedDate
    type := tx.type
    currency_code := ca.1
    amount := normalizeAmount ca.2
    marketplace_id := tx.marketplaceId
    order_id := details.orderId
    reason := details.reason
    raw := tx }

def normalize_transactions (p : ApiPayload) : List NormRow :=
  p.transactions.map normalizeOne

/-! ## Validator (`validate_transactions`) -/

/-- Python truthiness of an optional string: `None` and `""` are falsy. -/
def truthy : Option String → Option String
  | none => none
  | some s => if s = "" then none else some s

def pyLower (s : String) : String := String.mk (s.data.map asciiLower)

/-- `ISO_4217_RE.match(s)` for `re.compile(r"^[A-Z]{3}$")`: three ASCII
uppercase letters; Python's `$` also matches just before one trailing
newline. -/
def ISO_4217_RE_match (s : String) : Bool :=
  match s.data with
  | [a, b, c] => a.isUpper && b.isUpper && c.isUpper
  | [a, b, c, d] => a.isUpper && b.isUpper && c.isUpper && d = '\n'
  | _ => false

/-- A validated row: the normalized row plus `posted_date` (microseconds
since the epoch, UTC) and `posted_day` (days since the epoch), with
`posted_date_raw` dropped. -/
structure ValidRow where
  transaction_id : Option String
  type : Option String
  currency_code : Option String
  amount : Option PyDec
  marketplace_id : Option String
  order_id : Option String
  reason : Option String
  raw : RawTx
  posted_date : Int
  posted_day : Int
  deriving DecidableEq, Repr

def mkValidRow (row : NormRow) (posted : Int) : ValidRow :=
  { transaction_id := row.transaction_id
    type := row.type
    currency_code := row.currency_code
    amount := row.amount
    marketplace_id := row.marketplace_id
    order_id := row.order_id
    reason := row.reason
    raw := row.raw
    posted_date := posted
    posted_day := Int.fdiv posted usPerDay }

def tagOf (i : Nat) : String := "item[" ++ toString i ++ "]"

/-- The outcome of the per-row checks of `validate_transactions`:
rejected with an error message and the warnings already emitted before
the rejection; accepted with warnings; or a raised exception. -/
inductive RowOutcome where
  | rejected (err : String) (warns : List String)
  | accepted (v : ValidRow) (warns : List String) (tid : String)
  | raised (msg : String)
  deriving DecidableEq, Repr

/-- The body of the `for` loop of `validate_transactions`, for the row at
1-based index `i` with the identifiers seen so far. -/
def checkRow (localOff now : Int) (i : Nat) (seen : List String) (row : NormRow) :
    RowOutcome :=
  let tag := tagOf i
  match truthy row.transaction_id with
  | none => .rejected (tag ++ ": falta 'transactionId'") []
  | some tid =>
    if tid ∈ seen then
      .rejected (tag ++ ":" ++ tid ++ ": transactionId duplicado en el batch") []
    else
      match truthy row.posted_date_raw with
      | none => .rejected (tag ++ ":" ++ tid ++ ": falta 'postedDate'") []
      | some pdr =>
        match parse_iso_z localOff pdr with
        | none =>
          .rejected (tag ++ ":" ++ tid ++ ": 'postedDate' no es ISO-8601: " ++ pdr) []
        | some posted =>
          if posted > now then
            .rejected (tag ++ ":" ++ tid ++ ": 'postedDate' en el futuro: " ++ pdr) []
          else
            let oldWarn : List String :=
              if Int.fdiv (now - posted) usPerDay > 370 then
                [tag ++ ":" ++ tid ++ ": 'postedDate' muy antigua (" ++ pdr ++
                  "); revisar rango (<=180d recomendado)"]
              else []
            let curErr : Option String :=
              match row.currency_code with
              | some cur =>
                if cur ≠ "" ∧ ¬ ISO_4217_RE_match cur then
                  some (tag ++ ":" ++ tid ++ ": currency_code inválido: " ++ cur)
                else none
              | none => none
            match curErr with
            | some msg => .rejected msg oldWarn
            | none =>
              match row.amount with
              | some a =>
                if pyLower ((truthy row.type).getD "") = "refund" then
                  match pyDecGtZero a with
                  | none => .raised "decimal.InvalidOperation"
                  | some pos =>
                    let warns := oldWarn ++
                      (if pos then
                        [tag ++ ":" ++ tid ++ ": Refund con monto positivo (" ++
                          pyDecStr a ++ "). Revisar signo."]
                       else [])
                    .accepted (mkValidRow row posted) warns tid
                else .accepted (mkValidRow row posted) oldWarn tid
              | none => .accepted (mkValidRow row posted) oldWarn tid

/-- How one row updates the `seen_ids` set: a row with a truthy
identifier not yet seen adds it (`seen_ids.add(tid)` runs right after
the duplicate check, before the remaining checks); other rows leave the
set unchanged. -/
def seenAfter (seen : List String) : List NormRow → List String
  | [] => seen
  | row :: rest =>
    match truthy row.transaction_id with
    | none => seenAfter seen rest
    | some t => if t ∈ seen then seenAfter seen rest else seenAfter (t :: seen) rest

/-- The loop of `validate_transactions`: rows in input order, threading
the seen-identifier set; an uncaught exception aborts the whole call. -/
def validateGo (localOff now : Int) (i : Nat) (seen : List String) :
    List NormRow → Except String (List ValidRow × List String × List String)
  | [] => .ok ([], [], [])
  | row :: rest =>
    match checkRow localOff now i seen row with
    | .raised m => .error m
    | .rejected err warns =>
      match validateGo localOff now (i + 1) (seenAfter seen [row]) rest with
      | .error m => .error m
      | .ok (v, e, w) => .ok (v, err :: e, warns ++ w)
    | .accepted vr warns _tid =>
      match validateGo localOff now (i + 1) (seenAfter seen [row]) rest with
      | .error m => .error m
      | .ok (v, e, w) => .ok (vr :: v, e, warns ++ w)

/-- `validate_transactions`, parametrised by the local-timezone offset
(used only for naive timestamps) and the current time `now` observed at
the start of the call. -/
def validate_transactions (localOff now : Int) (rows : List NormRow) :
    Except String (List ValidRow × List String × List String) :=
  validateGo localOff now 1 [] rows

/-- The identifiers a batch prefix marks as seen (Python-truthy
`transaction_id`s of its rows). -/
def seenIds (rows : List NormRow) : List String :=
  rows.filterMap (fun r => truthy r.transaction_id)

/-! ## Idempotent store (`save_transactions`)

The table `spapi_transactions` is modelled as a list of rows; its
`transaction_id` PRIMARY KEY makes the upsert of `save_transactions`
(`INSERT ... ON CONFLICT (transaction_id) DO UPDATE SET ...`) update the
conflicting row — overwriting every mutable column and refreshing
`updated_at` to the write time — and otherwise append a fresh row whose
`created_at`/`updated_at` both default to the write time. -/

structure DbRow where
  transaction_id : String
  posted_date : Int
  posted_day : Int
  type : Option String
  currency_code : Option String
  amount : Option PyDec
  marketplace_id : Option String
  order_id : Option String
  reason : Option String
  raw : RawTx
  created_at : Int
  updated_at : Int
  deriving DecidableEq, Repr

/-- The row `save_transactions` sends for one validated record. -/
def insertRow (now : Int) (tid : String) (v : ValidRow) : DbRow :=
  { transaction_id := tid
    posted_date := v.posted_date
    posted_day := v.posted_day
    type := v.type
    currency_code := v.currency_code
    amount := v.amount
    marketplace_id := v.marketplace_id
    order_id := v.order_id
    reason := v.reason
    raw := v.raw
    created_at := now
    updated_at := now }

/-- The `DO UPDATE SET` clause applied to the conflicting row `r`:
every mutable column takes the incoming value, `updated_at := now()`,
`created_at` untouched. -/
def conflictUpdate (now : Int) (v : ValidRow) (r : DbRow) : DbRow :=
  { r with
    posted_date := v.posted_date
    posted_day := v.posted_day
    type := v.type
    currency_code := v.currency_code
    amount := v.amount
    marketplace_id := v.marketplace_id
    order_id := v.order_id
    reason := v.reason
    raw := v.raw
    updated_at := now }

def upsertOne (now : Int) (tid : String) (v : ValidRow) (table : List DbRow) :
    List DbRow :=
  if table.any (fun r => r.transaction_id == tid) then
    table.map (fun r => if r.transaction_id == tid then conflictUpdate now v r else r)
  else table ++ [insertRow now tid v]

/-- `save_transactions`: rows without a truthy `transaction_id` are
skipped, the rest are upserted (one statement, one write time `now`);
returns the new table and the `len(values)` return value. -/
def save_transactions (now : Int) (txs : List ValidRow) (table : List DbRow) :
    List DbRow × Nat :=
  let values := txs.filterMap (fun v => (truthy v.transaction_id).map (fun t => (t, v)))
  (values.foldl (fun t p => upsertOne now p.1 p.2 t) table, values.length)

/-! ## Remote fetch client (`SPAPIClient.list_transactions_real`)

The network is modelled by a script: the `k`-th request receives the
`k`-th element of `responses`.  The returned trace records every
token-endpoint call, request and sleep, in order. -/

inductive FetchEvent where
  | tokenCall
  | request
  | sleep (t : Rat)
  deriving DecidableEq, Repr

structure HttpResponse where
  status : Nat
  /-- The `Retry-After` header, already parsed as a number when present
  (`float(retry_after)` in the source). -/
  retryAfter : Option Rat
  /-- The JSON body, used only on the success path. -/
  body : ApiPayload
  deriving DecidableEq, Repr

inductive FetchErr where
  /-- `ValueError` from `_validate_iso8601_utc`. -/
  | invalidDate
  /-- `requests.HTTPError` from `response.raise_for_status()`. -/
  | httpStatus (s : Nat)
  /-- The final `RuntimeError` after the retry loop. -/
  | retriesExhausted
  /-- Model artifact: the response script ran out. -/
  | noResponse
  deriving DecidableEq, Repr

inductive FetchOk where
  /-- The parsed body, returned when it holds transactions. -/
  | payload (p : ApiPayload)
  /-- The `{"status": "ok", "transactions": [], "note": ...}` return. -/
  | emptyNote
  deriving DecidableEq, Repr

/-- The `for attempt in range(1, max_retries + 1)` loop. -/
def fetchLoop (maxRetries : Nat) (attempt : Nat) (backoff : Rat)
    (tokenRefreshed : Bool) :
    List HttpResponse → List FetchEvent × Except FetchErr FetchOk
  | [] =>
    if attempt > maxRetries then ([], .error .retriesExhausted)
    else ([], .error .noResponse)
  | r :: rest =>
    if attempt > maxRetries then ([], .error .retriesExhausted)
    else
      if r.status = 401 ∧ tokenRefreshed = false then
          let p := fetchLoop maxRetries (attempt + 1) backoff true rest
          (.request :: .tokenCall :: p.1, p.2)
        else if r.status = 429 then
          let wait := r.retryAfter.getD backoff
          let p := fetchLoop maxRetries (attempt + 1) (min (backoff * 2) 60)
            tokenRefreshed rest
          (.request :: .sleep wait :: p.1, p.2)
        else if 500 ≤ r.status ∧ r.status < 600 then
          let p := fetchLoop maxRetries (attempt + 1) (min (backoff * 2) 60)
            tokenRefreshed rest
          (.request :: .sleep backoff :: p.1, p.2)
        else if 400 ≤ r.status then
          ([.request], .error (.httpStatus r.status))
        else if r.body.transactions = [] then
          ([.request], .ok .emptyNote)
        else
          ([.request], .ok (.payload r.body))

/-- `list_transactions_real`: the timestamp is validated first; only then
the token exchange (`_get_lwa_token`, the leading `tokenCall`) and the
request loop run. -/
def list_transactions_real (postedAfter : String) (maxRetries : Nat)
    (responses : List HttpResponse) : List FetchEvent × Except FetchErr FetchOk :=
  if validate_iso8601_utc postedAfter then
    let p := fetchLoop maxRetries 1 1 false responses
    (.tokenCall :: p.1, p.2)
  else ([], .error .invalidDate)

def isRequest : FetchEvent → Bool
  | .request => true
  | _ => false

def isTokenCall : FetchEvent → Bool
  | .tokenCall => true
  | _ => false

def reqCount (tr : List FetchEvent) : Nat := tr.countP isRequest

def tokCount (tr : List FetchEvent) : Nat := tr.countP isTokenCall

/-- `allRetryable n refreshed responses`: the next `n` scripted responses
all take a retry branch of the loop — throttling, a 5xx server error, or
the single allowed 401 token refresh. -/
def allRetryable : Nat → Bool → List HttpResponse → Bool
  | 0, _, _ => true
  | _ + 1, _, [] => false
  | n + 1, refreshed, r :: rest =>
    (r.status == 401 && !refreshed && allRetryable n true rest)
    || ((r.status == 429 || (500 ≤ r.status && r.status < 600))
        && allRetryable n refreshed rest)

/-- The valid rows' (truthy) transaction identifiers. -/
def validTids (v : List ValidRow) : List String :=
  v.filterMap (fun r => truthy r.transaction_id)

/-! ## Concrete inputs used by witnesses and counterexamples -/

/-- The non-empty payload used in the 401-then-200 scenario. -/
def payload9 : ApiPayload :=
  ⟨[{ transactionId := some "tx-mock-001"
      postedDate := some "2025-08-30T12:15:00Z"
      type := some "Order"
      amount := .obj (some "USD") (some "19.99")
      marketplaceId := some "ATVPDKIKX0DER"
      details := some ⟨some "903-1234567-1234567", none⟩ }]⟩

/-- The first row of the duplicate-batch witness. -/
def dupRowA : NormRow :=
  { transaction_id := some "tx-1"
    posted_date_raw := some "2025-08-30T12:15:00Z"
    type := some "Order"
    currency_code := some "USD"
    amount := some (.fin 1999 (-2))
    marketplace_id := none
    order_id := none
    reason := none
    raw := ⟨some "tx-1", some "2025-08-30T12:15:00Z", some "Order",
      .obj (some "USD") (some "19.99"), none, none⟩ }

/-- The second row of the duplicate-batch witness: same identifier,
different mutable values. -/
def dupRowB : NormRow :=
  { dupRowA with type := some "Refund", amount := some (.fin (-500) (-2)) }

/-- The boundary-witness row: posted exactly at the current time used by
the witness. -/
def boundaryRow : NormRow :=
  { transaction_id := some "tx-5"
    posted_date_raw := some "1970-01-02T00:00:00Z"
    type := some "Order"
    currency_code := some "USD"
    amount := some (.fin 1999 (-2))
    marketplace_id := none
    order_id := none
    reason := none
    raw := ⟨some "tx-5", some "1970-01-02T00:00:00Z", some "Order",
      .obj (some "USD") (some "19.99"), none, none⟩ }

/-- The invalid-currency witness row. -/
def currencyRow : NormRow :=
  { transaction_id := some "tx-6"
    posted_date_raw := some "2025-08-30T12:15:00Z"
    type := some "Order"
    currency_code := some "usd"
    amount := some (.fin 1999 (-2))
    marketplace_id := none
    order_id := none
    reason := none
    raw := ⟨some "tx-6", some "2025-08-30T12:15:00Z", some "Order",
      .obj (some "usd") (some "19.99"), none, none⟩ }

/-- A payload whose single transaction carries the amount string `"NaN"`
and the type `"Refund"`. -/
def nanRefundPayload : ApiPayload :=
  ⟨[{ transactionId := some "tx-nan"
      postedDate := some "2025-01-01T00:00:00Z"
      type := some "Refund"
      amount := .obj (some "USD") (some "NaN")
      marketplaceId := some "ATVPDKIKX0DER"
      details := none }]⟩

/-- A payload whose single transaction carries the amount string `"NaN"`
(type `"Order"`, so the validator does not touch the amount). -/
def nanOrderPayload : ApiPayload :=
  ⟨[{ transactionId := some "tx-nan2"
      postedDate := some "2025-01-01T00:00:00Z"
      type := some "Order"
      amount := .obj (some "USD") (some "NaN")
      marketplaceId := none
      details := none }]⟩

/-- `amount` is a finite decimal with exactly two fractional digits. -/
def isQuantized2 (d : PyDec) : Prop := ∃ c : Int, d = .fin c (-2)

/-- A normalized row whose posted date is more than 370 days before
`oldNow10` and whose currency code is lowercase. -/
def oldRow10 : NormRow :=
  { transaction_id := some "tx-old"
    posted_date_raw := some "2020-01-01T00:00:00Z"
    type := some "Order"
    currency_code := some "usd"
    amount := some (.fin 1999 (-2))
    marketplace_id := none
    order_id := none
    reason := none
    raw := ⟨some "tx-old", some "2020-01-01T00:00:00Z", some "Order",
      .obj (some "usd") (some "19.99"), none, none⟩ }

/-- A validation time (2025-10-09T09:53:20Z, in microseconds). -/
def oldNow10 : Int := 1760003600000000

/-! ## C3 — validator totality fails on a NaN-amount refund -/

/-- C3: the claim says `validate_transactions` always returns a triple
without raising.  The code violates it: the normalizer lets a quiet NaN
through `Decimal("NaN").quantize(Decimal("0.01"))`, and the refund-sign
check `amount > Decimal("0.00")` then signals `InvalidOperation`, which
no handler catches.  This theorem evaluates the pipeline at the failing
input: the normalized batch of `nanRefundPayload` makes
`validate_transactions` raise instead of returning a triple. -/
theorem validator_raises_on_nan_refund :
    validate_transactions 0 oldNow10 (normalize_transactions nanRefundPayload) =
      .error "decimal.InvalidOperation" := by
  rfl

/-! ## C4 — the normalizer can emit a present amount that is not a
2-fractional-digit decimal -/

/-- C4: the claim says every present amount in a normalized record is
rounded to exactly 2 fractional digits.  The code violates it: the
amount string `"NaN"` is parsed by `Decimal` and survives `quantize`
as a quiet NaN, so the normalized record carries a present amount that
is not a finite 2-fractional-digit decimal (and is not absent either).
-/
theorem normalizer_emits_nan_amount :
    (normalize_transactions nanOrderPayload).map (fun r => r.amount) =
      [some PyDec.nan] ∧ ¬ isQuantized2 PyDec.nan := by
  constructor
  · rfl
  · rintro ⟨c, h⟩
    exact PyDec.noConfusion h

/-! ## C7 — fail-fast parameter validation -/

/-- C7: a malformed `sinceTimestamp` makes `list_transactions_real`
raise the parameter error with an empty effect trace: no token-exchange
call, no request, no sleep — regardless of the retry budget or of what
the network would have answered. -/
theorem fetch_invalid_since_no_effects (pa : String) (mr : Nat)
    (resp : List HttpResponse) (h : validate_iso8601_utc pa = false) :
    list_transactions_real pa mr resp = ([], .error .invalidDate) := by
  simp [list_transactions_real, h]

theorem fetch_invalid_since_no_effects_witness :
    validate_iso8601_utc "2025-13-01T00:00:00Z" = false ∧
    list_transactions_real "2025-13-01T00:00:00Z" 5
        [⟨200, none, ⟨[]⟩⟩, ⟨200, none, ⟨[]⟩⟩] = ([], .error .invalidDate) :=
  ⟨by decide,
   fetch_invalid_since_no_effects "2025-13-01T00:00:00Z" 5
     [⟨200, none, ⟨[]⟩⟩, ⟨200, none, ⟨[]⟩⟩] (by decide)⟩

/-! ## C10 — a record can contribute both a warning and a rejection -/

/-- C10: the unusually-old warning is appended before the currency-code
check runs, so a record that is both more than 370 days old and carries
an invalid currency code contributes one warning and one rejection
error, and appears in the warnings list while being absent from the
valid output. -/
theorem old_warning_with_rejection :
    validate_transactions 0 oldNow10 [oldRow10] =
      .ok ([],
        ["item[1]:tx-old: currency_code inválido: usd"],
        ["item[1]:tx-old: 'postedDate' muy antigua (2020-01-01T00:00:00Z); revisar rango (<=180d recomendado)"]) := by
  rfl

/-! ## C1 — upsert idempotence -/

/-- C1: starting from a table that holds no row for the key `k`,
upserting a first record and then a second record with the same
`transaction_id` but arbitrary other field values leaves exactly one
stored row for `k`: its mutable columns (`posted_date`, `posted_day`,
`type`, `currency_code`, `amount`, `marketplace_id`, `order_id`,
`reason`, `raw`) all equal the second write's values, `created_at` is
the first write's time (untouched by the second write), and
`updated_at` is the second write's time. -/
theorem upsert_twice_single_row (now1 now2 : Int) (table : List DbRow)
    (v1 v2 : ValidRow) (k : String)
    (hk1 : truthy v1.transaction_id = some k)
    (hk2 : truthy v2.transaction_id = some k)
    (hnew : ∀ r ∈ table, r.transaction_id ≠ k) :
    ((save_transactions now2 [v2] (save_transactions now1 [v1] table).1).1.filter
        (fun r => r.transaction_id == k)) =
      [{ transaction_id := k
         posted_date := v2.posted_date
         posted_day := v2.posted_day
         type := v2.type
         currency_code := v2.currency_code
         amount := v2.amount
         marketplace_id := v2.marketplace_id
         order_id := v2.order_id
         reason := v2.reason
         raw := v2.raw
         created_at := now1
         updated_at := now2 }] := by
  have hany1 : table.any (fun r => r.transaction_id == k) = false := by
    rw [List.any_eq_false]
    intro r hr
    simpa using hnew r hr
  have hstep1 : (save_transactions now1 [v1] table).1 =
      table ++ [insertRow now1 k v1] := by
    simp only [save_transactions, List.filterMap_cons, List.filterMap_nil, hk1,
      Option.map_some', List.foldl_cons, List.foldl_nil]
    rw [upsertOne, if_neg (by rw [hany1]; exact Bool.false_ne_true)]
  rw [hstep1]
  have hany2 : ((table ++ [insertRow now1 k v1]).any
      (fun r => r.transaction_id == k)) = true := by
    simp [insertRow]
  simp only [save_transactions, hk2, List.filterMap_cons, List.filterMap_nil,
    Option.map_some', List.foldl_cons, List.foldl_nil, upsertOne, hany2,
    if_true]
  have key : ∀ t : List DbRow, (∀ r ∈ t, r.transaction_id ≠ k) →
      (((t ++ [insertRow now1 k v1]).map
          (fun r => if r.transaction_id == k then conflictUpdate now2 v2 r else r)).filter
        (fun r => r.transaction_id == k)) =
        [conflictUpdate now2 v2 (insertRow now1 k v1)] := by
    intro t ht
    induction t with
    | nil => simp [insertRow, conflictUpdate]
    | cons r ts ih =>
      have hr : ¬ r.transaction_id = k := ht r (by simp)
      simpa [hr] using ih (fun x hx => ht x (List.mem_cons_of_mem r hx))
  rw [key table hnew]
  rfl

theorem upsert_twice_single_row_witness :
    ((save_transactions 200
        [{ transaction_id := some "tx-1", type := some "Refund",
           currency_code := some "EUR", amount := some (.fin (-500) (-2)),
           marketplace_id := some "M2", order_id := some "o2",
           reason := some "CustomerReturn",
           raw := ⟨some "tx-1", some "2025-08-31T00:00:00Z", some "Refund",
             .obj (some "EUR") (some "-5.00"), some "M2", none⟩,
           posted_date := 1756598400000000, posted_day := 20331 }]
        (save_transactions 100
          [{ transaction_id := some "tx-1", type := some "Order",
             currency_code := some "USD", amount := some (.fin 1999 (-2)),
             marketplace_id := some "M1", order_id := some "o1",
             reason := none,
             raw := ⟨some "tx-1", some "2025-08-30T12:15:00Z", some "Order",
               .obj (some "USD") (some "19.99"), some "M1", none⟩,
             posted_date := 1756556100000000, posted_day := 20330 }]
          []).1).1.filter (fun r => r.transaction_id == "tx-1")) =
      [{ transaction_id := "tx-1"
         posted_date := 1756598400000000
         posted_day := 20331
         type := some "Refund"
         currency_code := some "EUR"
         amount := some (.fin (-500) (-2))
         marketplace_id := some "M2"
         order_id := some "o2"
         reason := some "CustomerReturn"
         raw := ⟨some "tx-1", some "2025-08-31T00:00:00Z", some "Refund",
           .obj (some "EUR") (some "-5.00"), some "M2", none⟩
         created_at := 100
         updated_at := 200 }] :=
  upsert_twice_single_row 100 200 [] _ _ "tx-1" (by decide) (by decide)
    (by intro r hr; cases hr)

/-! ## Client lemmas -/

lemma reqCount_cons_request (tr : List FetchEvent) :
    reqCount (.request :: tr) = reqCount tr + 1 := by
  simp [reqCount, List.countP_cons, isRequest]

lemma reqCount_cons_tokenCall (tr : List FetchEvent) :
    reqCount (.tokenCall :: tr) = reqCount tr := by
  simp [reqCount, List.countP_cons, isRequest]

lemma reqCount_cons_sleep (t : Rat) (tr : List FetchEvent) :
    reqCount (.sleep t :: tr) = reqCount tr := by
  simp [reqCount, List.countP_cons, isRequest]

lemma tokCount_cons_request (tr : List FetchEvent) :
    tokCount (.request :: tr) = tokCount tr := by
  simp [tokCount, List.countP_cons, isTokenCall]

lemma tokCount_cons_tokenCall (tr : List FetchEvent) :
    tokCount (.tokenCall :: tr) = tokCount tr + 1 := by
  simp [tokCount, List.countP_cons, isTokenCall]

lemma tokCount_cons_sleep (t : Rat) (tr : List FetchEvent) :
    tokCount (.sleep t :: tr) = tokCount tr := by
  simp [tokCount, List.countP_cons, isTokenCall]

lemma reqCount_nil : reqCount [] = 0 := rfl

lemma tokCount_nil : tokCount [] = 0 := rfl

/-- The two defining equations of `fetchLoop`, restated for rewriting. -/
lemma fetchLoop_nil (mr a : Nat) (b : Rat) (rf : Bool) :
    fetchLoop mr a b rf [] =
      if a > mr then ([], .error .retriesExhausted)
      else ([], .error .noResponse) := rfl

lemma fetchLoop_cons (mr a : Nat) (b : Rat) (rf : Bool) (r : HttpResponse)
    (rest : List HttpResponse) :
    fetchLoop mr a b rf (r :: rest) =
      if a > mr then ([], .error .retriesExhausted)
      else
        if r.status = 401 ∧ rf = false then
          let p := fetchLoop mr (a + 1) b true rest
          (.request :: .tokenCall :: p.1, p.2)
        else if r.status = 429 then
          let wait := r.retryAfter.getD b
          let p := fetchLoop mr (a + 1) (min (b * 2) 60) rf rest
          (.request :: .sleep wait :: p.1, p.2)
        else if 500 ≤ r.status ∧ r.status < 600 then
          let p := fetchLoop mr (a + 1) (min (b * 2) 60) rf rest
          (.request :: .sleep b :: p.1, p.2)
        else if 400 ≤ r.status then
          ([.request], .error (.httpStatus r.status))
        else if r.body.transactions = [] then
          ([.request], .ok .emptyNote)
        else
          ([.request], .ok (.payload r.body)) := rfl

/-- Every run of the request loop performs at most
`maxRetries + 1 - attempt` requests. -/
lemma fetchLoop_req_le (resp : List HttpResponse) :
    ∀ (mr attempt : Nat) (backoff : Rat) (refreshed : Bool),
      reqCount (fetchLoop mr attempt backoff refreshed resp).1 ≤ mr + 1 - attempt := by
  induction resp with
  | nil =>
    intro mr a b rf
    rw [fetchLoop_nil]
    by_cases h : a > mr <;> simp [h, reqCount_nil]
  | cons r rest ih =>
    intro mr a b rf
    rw [fetchLoop_cons]
    by_cases h : a > mr
    · simp [h, reqCount_nil]
    · rw [if_neg h]
      by_cases h1 : r.status = 401 ∧ rf = false
      · rw [if_pos h1]
        have := ih mr (a + 1) b true
        simp only [reqCount_cons_request, reqCount_cons_tokenCall]
        omega
      · rw [if_neg h1]
        by_cases h2 : r.status = 429
        · rw [if_pos h2]
          have := ih mr (a + 1) (min (b * 2) 60) rf
          simp only [reqCount_cons_request, reqCount_cons_sleep]
          omega
        · rw [if_neg h2]
          by_cases h3 : 500 ≤ r.status ∧ r.status < 600
          · rw [if_pos h3]
            have := ih mr (a + 1) (min (b * 2) 60) rf
            simp only [reqCount_cons_request, reqCount_cons_sleep]
            omega
          · rw [if_neg h3]
            by_cases h4 : 400 ≤ r.status
            · rw [if_pos h4]
              simp only [reqCount_cons_request, reqCount_nil]
              omega
            · rw [if_neg h4]
              by_cases h5 : r.body.transactions = []
              · rw [if_pos h5]
                simp only [reqCount_cons_request, reqCount_nil]
                omega
              · rw [if_neg h5]
                simp only [reqCount_cons_request, reqCount_nil]
                omega

/-- A run whose next `mr + 1 - attempt` scripted responses are all
retryable performs exactly that many requests and ends in the
retries-exhausted error. -/
lemma fetchLoop_exhaust (resp : List HttpResponse) :
    ∀ (n mr attempt : Nat) (backoff : Rat) (refreshed : Bool),
      attempt + n = mr + 1 → allRetryable n refreshed resp = true →
      (fetchLoop mr attempt backoff refreshed resp).2 = .error .retriesExhausted ∧
      reqCount (fetchLoop mr attempt backoff refreshed resp).1 = n := by
  induction resp with
  | nil =>
    intro n mr a b rf hsum hall
    cases n with
    | zero =>
      have ha : a > mr := by omega
      rw [fetchLoop_nil, if_pos ha]
      exact ⟨rfl, rfl⟩
    | succ m => simp [allRetryable] at hall
  | cons r rest ih =>
    intro n mr a b rf hsum hall
    cases n with
    | zero =>
      have ha : a > mr := by omega
      rw [fetchLoop_cons, if_pos ha]
      exact ⟨rfl, rfl⟩
    | succ m =>
      have ha : ¬ a > mr := by omega
      rw [fetchLoop_cons, if_neg ha]
      rcases Bool.or_eq_true _ _ |>.mp hall with hcase | hcase
      · obtain ⟨h401, hrest⟩ := Bool.and_eq_true _ _ |>.mp hcase
        obtain ⟨h401', hrf⟩ := Bool.and_eq_true _ _ |>.mp h401
        have hst : r.status = 401 := by simpa using h401'
        have hrf' : rf = false := by simpa using hrf
        rw [if_pos ⟨hst, hrf'⟩]
        have := ih m mr (a + 1) b true (by omega) hrest
        simp only [reqCount_cons_request, reqCount_cons_tokenCall]
        exact ⟨this.1, by rw [this.2]⟩
      · obtain ⟨hretry, hrest⟩ := Bool.and_eq_true _ _ |>.mp hcase
        rcases Bool.or_eq_true _ _ |>.mp hretry with h429 | h5xx
        · have hst : r.status = 429 := by simpa using h429
          have hn401 : ¬ (r.status = 401 ∧ rf = false) := by
            rintro ⟨h, _⟩; omega
          rw [if_neg hn401, if_pos hst]
          have := ih m mr (a + 1) (min (b * 2) 60) rf (by omega) hrest
          simp only [reqCount_cons_request, reqCount_cons_sleep]
          exact ⟨this.1, by rw [this.2]⟩
        · obtain ⟨hlo, hhi⟩ := Bool.and_eq_true _ _ |>.mp h5xx
          have hlo' : 500 ≤ r.status := by simpa using hlo
          have hhi' : r.status < 600 := by simpa using hhi
          have hn401 : ¬ (r.status = 401 ∧ rf = false) := by
            rintro ⟨h, _⟩; omega
          have hn429 : ¬ r.status = 429 := by omega
          rw [if_neg hn401, if_neg hn429, if_pos ⟨hlo', hhi'⟩]
          have := ih m mr (a + 1) (min (b * 2) 60) rf (by omega) hrest
          simp only [reqCount_cons_request, reqCount_cons_sleep]
          exact ⟨this.1, by rw [this.2]⟩

/-- At most one token refresh happens inside the request loop: none at
all once the refresh budget is spent. -/
lemma fetchLoop_tok_le (resp : List HttpResponse) :
    ∀ (mr attempt : Nat) (backoff : Rat) (refreshed : Bool),
      tokCount (fetchLoop mr attempt backoff refreshed resp).1 ≤
        (if refreshed then 0 else 1) := by
  induction resp with
  | nil =>
    intro mr a b rf
    rw [fetchLoop_nil]
    by_cases h : a > mr <;> simp [h, tokCount_nil]
  | cons r rest ih =>
    intro mr a b rf
    rw [fetchLoop_cons]
    by_cases h : a > mr
    · simp [h, tokCount_nil]
    · rw [if_neg h]
      by_cases h1 : r.status = 401 ∧ rf = false
      · rw [if_pos h1]
        have := ih mr (a + 1) b true
        simp only [tokCount_cons_request, tokCount_cons_tokenCall]
        rw [h1.2]
        simp only [if_true] at this ⊢
        simp only [Bool.false_eq_true, if_false]
        omega
      · rw [if_neg h1]
        by_cases h2 : r.status = 429
        · rw [if_pos h2]
          have := ih mr (a + 1) (min (b * 2) 60) rf
          simpa only [tokCount_cons_request, tokCount_cons_sleep] using this
        · rw [if_neg h2]
          by_cases h3 : 500 ≤ r.status ∧ r.status < 600
          · rw [if_pos h3]
            have := ih mr (a + 1) (min (b * 2) 60) rf
            simpa only [tokCount_cons_request, tokCount_cons_sleep] using this
          · rw [if_neg h3]
            by_cases h4 : 400 ≤ r.status
            · rw [if_pos h4]
              rw [tokCount_cons_request, tokCount_nil]
              split <;> omega
            · rw [if_neg h4]
              by_cases h5 : r.body.transactions = []
              · rw [if_pos h5]
                rw [tokCount_cons_request, tokCount_nil]
                split <;> omega
              · rw [if_neg h5]
                rw [tokCount_cons_request, tokCount_nil]
                split <;> omega

/-! ## C8 — retry bound -/

/-- C8: (1) every invocation of `list_transactions_real` performs at
most `max_retries` request attempts, whatever the timestamp, budget and
scripted responses; (2) when the timestamp is valid and every attempt
would end in a retryable outcome (throttling, a 5xx server error, or
the single allowed 401 token refresh), the call performs exactly
`max_retries` requests and raises the distinct retries-exhausted error
instead of returning a payload. -/
theorem fetch_retry_bound :
    (∀ (pa : String) (mr : Nat) (resp : List HttpResponse),
       reqCount (list_transactions_real pa mr resp).1 ≤ mr) ∧
    (∀ (pa : String) (mr : Nat) (resp : List HttpResponse),
       validate_iso8601_utc pa = true → allRetryable mr false resp = true →
       (list_transactions_real pa mr resp).2 = .error .retriesExhausted ∧
       reqCount (list_transactions_real pa mr resp).1 = mr) := by
  constructor
  · intro pa mr resp
    rw [list_transactions_real]
    by_cases h : validate_iso8601_utc pa
    · rw [if_pos h]
      show reqCount (.tokenCall :: (fetchLoop mr 1 1 false resp).1) ≤ mr
      rw [reqCount_cons_tokenCall]
      have := fetchLoop_req_le resp mr 1 1 false
      omega
    · rw [if_neg h]
      exact Nat.zero_le mr
  · intro pa mr resp hval hall
    rw [list_transactions_real, if_pos hval]
    have := fetchLoop_exhaust resp mr mr 1 1 false (by omega) hall
    refine ⟨this.1, ?_⟩
    show reqCount (.tokenCall :: (fetchLoop mr 1 1 false resp).1) = mr
    rw [reqCount_cons_tokenCall]
    exact this.2

theorem fetch_retry_bound_witness :
    validate_iso8601_utc "2025-08-23T00:00:00Z" = true ∧
    allRetryable 3 false
      [⟨500, none, ⟨[]⟩⟩, ⟨503, none, ⟨[]⟩⟩, ⟨500, none, ⟨[]⟩⟩] = true ∧
    ((list_transactions_real "2025-08-23T00:00:00Z" 3
        [⟨500, none, ⟨[]⟩⟩, ⟨503, none, ⟨[]⟩⟩, ⟨500, none, ⟨[]⟩⟩]).2 =
          .error .retriesExhausted ∧
      reqCount (list_transactions_real "2025-08-23T00:00:00Z" 3
        [⟨500, none, ⟨[]⟩⟩, ⟨503, none, ⟨[]⟩⟩, ⟨500, none, ⟨[]⟩⟩]).1 = 3) :=
  ⟨by decide, by decide,
   fetch_retry_bound.2 "2025-08-23T00:00:00Z" 3
     [⟨500, none, ⟨[]⟩⟩, ⟨503, none, ⟨[]⟩⟩, ⟨500, none, ⟨[]⟩⟩]
     (by decide) (by decide)⟩

/-! ## C9 — single credential refresh -/

/-- C9: on the response sequence `[401, 200]` the client performs
exactly one credential refresh (the trace holds the initial token
exchange, the first request, the single refresh, and the second
request) and returns the 200 payload; in every invocation the
token endpoint is called at most twice (initial exchange plus at most
one refresh); and on `[401, 401]` the second unauthorized response is
fatal, propagated as an error carrying the status with no further
refresh. -/
theorem fetch_single_refresh :
    (list_transactions_real "2025-08-23T00:00:00Z" 3
        [⟨401, none, ⟨[]⟩⟩, ⟨200, none, payload9⟩] =
      ([.tokenCall, .request, .tokenCall, .request], .ok (.payload payload9))) ∧
    (∀ (pa : String) (mr : Nat) (resp : List HttpResponse),
       tokCount (list_transactions_real pa mr resp).1 ≤ 2) ∧
    (list_transactions_real "2025-08-23T00:00:00Z" 3
        [⟨401, none, ⟨[]⟩⟩, ⟨401, none, ⟨[]⟩⟩] =
      ([.tokenCall, .request, .tokenCall, .request], .error (.httpStatus 401))) := by
  refine ⟨by rfl, ?_, by rfl⟩
  intro pa mr resp
  rw [list_transactions_real]
  by_cases h : validate_iso8601_utc pa
  · rw [if_pos h]
    show tokCount (.tokenCall :: (fetchLoop mr 1 1 false resp).1) ≤ 2
    rw [tokCount_cons_tokenCall]
    have := fetchLoop_tok_le resp mr 1 1 false
    simp only [Bool.false_eq_true, if_false] at this
    omega
  · rw [if_neg h]
    exact Nat.zero_le 2

/-! ## Validator lemmas -/

lemma validateGo_nil (o n : Int) (i : Nat) (seen : List String) :
    validateGo o n i seen [] = .ok ([], [], []) := rfl

lemma validateGo_cons (o n : Int) (i : Nat) (seen : List String) (row : NormRow)
    (rest : List NormRow) :
    validateGo o n i seen (row :: rest) =
      match checkRow o n i seen row with
      | .raised m => .error m
      | .rejected err warns =>
        (match validateGo o n (i + 1) (seenAfter seen [row]) rest with
         | .error m => .error m
         | .ok (v, e, w) => .ok (v, err :: e, warns ++ w))
      | .accepted vr warns _tid =>
        (match validateGo o n (i + 1) (seenAfter seen [row]) rest with
         | .error m => .error m
         | .ok (v, e, w) => .ok (vr :: v, e, warns ++ w)) := rfl

lemma seenAfter_nil (seen : List String) : seenAfter seen [] = seen := rfl

lemma seenAfter_cons (seen : List String) (row : NormRow) (rest : List NormRow) :
    seenAfter seen (row :: rest) = seenAfter (seenAfter seen [row]) rest := by
  cases ht : truthy row.transaction_id with
  | none => simp [seenAfter, ht]
  | some t =>
    by_cases hm : t ∈ seen <;> simp [seenAfter, ht, hm]

lemma mem_seenAfter (rows : List NormRow) :
    ∀ (seen : List String) (t : String),
      t ∈ seenAfter seen rows ↔ t ∈ seen ∨ t ∈ seenIds rows := by
  induction rows with
  | nil => intro seen t; simp [seenAfter, seenIds]
  | cons row rest ih =>
    intro seen t
    cases ht : truthy row.transaction_id with
    | none => simp [seenAfter, ht, ih, seenIds, List.filterMap_cons]
    | some t' =>
      by_cases hm : t' ∈ seen
      · simp only [seenAfter, ht, hm, if_true, ih, seenIds, List.filterMap_cons,
          List.mem_cons]
        constructor
        · rintro (h | h)
          · exact Or.inl h
          · exact Or.inr (Or.inr h)
        · rintro (h | rfl | h)
          · exact Or.inl h
          · exact Or.inl hm
          · exact Or.inr h
      · simp only [seenAfter, ht, hm, if_false, ih, seenIds, List.filterMap_cons,
          List.mem_cons]
        tauto

lemma checkRow_accepted_facts (o n : Int) (i : Nat) (seen : List String)
    (row : NormRow) (vr : ValidRow) (w : List String) (tid : String)
    (h : checkRow o n i seen row = .accepted vr w tid) :
    truthy row.transaction_id = some tid ∧
    truthy vr.transaction_id = some tid ∧ tid ∉ seen := by
  cases ht : truthy row.transaction_id with
  | none => simp [checkRow, ht] at h
  | some tid' =>
    by_cases hm : tid' ∈ seen
    · simp [checkRow, ht, hm] at h
    · cases hp : truthy row.posted_date_raw with
      | none => simp [checkRow, ht, hm, hp] at h
      | some pdr =>
        cases hz : parse_iso_z o pdr with
        | none => simp [checkRow, ht, hm, hp, hz] at h
        | some posted =>
          by_cases hfut : posted > n
          · simp [checkRow, ht, hm, hp, hz, hfut] at h
          · have hacc : ∀ warns : List String,
                RowOutcome.accepted (mkValidRow row posted) warns tid' =
                  .accepted vr w tid →
                (some tid' : Option String) = some tid ∧
                truthy vr.transaction_id = some tid ∧ tid ∉ seen := by
              intro warns hw
              obtain ⟨h1, _, h3⟩ := RowOutcome.accepted.inj hw
              subst h3
              rw [← h1]
              exact ⟨rfl, by simpa [mkValidRow] using ht, hm⟩
            cases hcc : row.currency_code with
            | none =>
              cases ha : row.amount with
              | none =>
                simp only [checkRow, ht, hm, hp, hz, hcc, ha, if_neg hfut] at h
                exact hacc _ h
              | some a =>
                by_cases hr : pyLower ((truthy row.type).getD "") = "refund"
                · cases hgz : pyDecGtZero a with
                  | none =>
                    simp only [checkRow, ht, hm, hp, hz, hcc, ha, hgz,
                      if_neg hfut, if_pos hr] at h
                    simp at h
                  | some pos =>
                    simp only [checkRow, ht, hm, hp, hz, hcc, ha, hgz,
                      if_neg hfut, if_pos hr] at h
                    exact hacc _ h
                · simp only [checkRow, ht, hm, hp, hz, hcc, ha,
                    if_neg hfut, if_neg hr] at h
                  exact hacc _ h
            | some cur =>
              by_cases hbad : cur ≠ "" ∧ ¬ ISO_4217_RE_match cur = true
              · simp only [checkRow, ht, hm, hp, hz, hcc, if_neg hfut,
                  if_pos hbad] at h
                simp at h
              · cases ha : row.amount with
                | none =>
                  simp only [checkRow, ht, hm, hp, hz, hcc, ha, if_neg hfut,
                    if_neg hbad] at h
                  exact hacc _ h
                | some a =>
                  by_cases hr : pyLower ((truthy row.type).getD "") = "refund"
                  · cases hgz : pyDecGtZero a with
                    | none =>
                      simp only [checkRow, ht, hm, hp, hz, hcc, ha, hgz,
                        if_neg hfut, if_neg hbad, if_pos hr] at h
                      simp at h
                    | some pos =>
                      simp only [checkRow, ht, hm, hp, hz, hcc, ha, hgz,
                        if_neg hfut, if_neg hbad, if_pos hr] at h
                      exact hacc _ h
                  · simp only [checkRow, ht, hm, hp, hz, hcc, ha,
                      if_neg hfut, if_neg hbad, if_neg hr] at h
                    exact hacc _ h

/-- Accepted rows carry pairwise distinct identifiers, none of them
already seen when the run started. -/
lemma validateGo_nodup (o n : Int) :
    ∀ (rows : List NormRow) (i : Nat) (seen : List String)
      (v : List ValidRow) (e w : List String),
      validateGo o n i seen rows = .ok (v, e, w) →
      (validTids v).Nodup ∧ ∀ t ∈ validTids v, t ∉ seen := by
  intro rows
  induction rows with
  | nil =>
    intro i seen v e w h
    rw [validateGo_nil] at h
    injection h with h'
    injection h' with hv hrest
    subst hv
    simp [validTids]
  | cons row rest ih =>
    intro i seen v e w h
    cases hc : checkRow o n i seen row with
    | raised m => simp [validateGo_cons, hc] at h
    | rejected err warns =>
      cases hrest : validateGo o n (i + 1) (seenAfter seen [row]) rest with
      | error m => simp [validateGo_cons, hc, hrest] at h
      | ok t =>
        obtain ⟨v', e', w'⟩ := t
        rw [validateGo_cons, hc, hrest] at h
        injection h with h'
        injection h' with hv hrest'
        subst hv
        obtain ⟨hnd, hout⟩ := ih (i + 1) (seenAfter seen [row]) v' e' w' hrest
        refine ⟨hnd, fun t htm hts => ?_⟩
        exact hout t htm ((mem_seenAfter [row] seen t).mpr (Or.inl hts))
    | accepted vr warns tid =>
      cases hrest : validateGo o n (i + 1) (seenAfter seen [row]) rest with
      | error m => simp [validateGo_cons, hc, hrest] at h
      | ok t =>
        obtain ⟨v', e', w'⟩ := t
        rw [validateGo_cons, hc, hrest] at h
        injection h with h'
        injection h' with hv hrest'
        subst hv
        obtain ⟨hrow, hvr, hnm⟩ := checkRow_accepted_facts o n i seen row vr warns tid hc
        obtain ⟨hnd, hout⟩ := ih (i + 1) (seenAfter seen [row]) v' e' w' hrest
        have hseenAfter : seenAfter seen [row] = tid :: seen := by
          simp [seenAfter, hrow, hnm]
        rw [hseenAfter] at hout
        have hvt : validTids (vr :: v') = tid :: validTids v' := by
          simp [validTids, List.filterMap_cons, hvr]
        rw [hvt]
        constructor
        · refine List.nodup_cons.mpr ⟨fun hmem => ?_, hnd⟩
          exact hout tid hmem (List.mem_cons_self tid seen)
        · intro t htm
          rcases List.mem_cons.mp htm with rfl | htm'
          · exact hnm
          · intro hts
            exact hout t htm' (List.mem_cons_of_mem tid hts)

/-- Composition of the validation loop over an append: the right part is
processed starting at the shifted index with the accumulated seen set,
and the outputs concatenate (an exception in either part aborts). -/
lemma validateGo_append (o n : Int) (post : List NormRow) :
    ∀ (pre : List NormRow) (i : Nat) (seen : List String),
      validateGo o n i seen (pre ++ post) =
        match validateGo o n i seen pre,
              validateGo o n (i + pre.length) (seenAfter seen pre) post with
        | .error m, _ => .error m
        | .ok _, .error m => .error m
        | .ok (v1, e1, w1), .ok (v2, e2, w2) =>
          .ok (v1 ++ v2, e1 ++ e2, w1 ++ w2) := by
  intro pre
  induction pre with
  | nil =>
    intro i seen
    rw [List.nil_append, validateGo_nil, seenAfter_nil]
    cases h : validateGo o n (i + List.length []) seen post with
    | error m => simpa using h
    | ok t =>
      obtain ⟨v, e, w⟩ := t
      simpa using h
  | cons row pre ih =>
    intro i seen
    rw [List.cons_append, seenAfter_cons, validateGo_cons, validateGo_cons]
    have hlen : i + 1 + pre.length = i + (row :: pre).length := by
      rw [List.length_cons]; omega
    cases hc : checkRow o n i seen row with
    | raised m => rfl
    | rejected err warns =>
      rw [ih (i + 1) (seenAfter seen [row]), hlen]
      cases h1 : validateGo o n (i + 1) (seenAfter seen [row]) pre with
      | error m => rfl
      | ok t1 =>
        obtain ⟨v1, e1, w1⟩ := t1
        cases h2 : validateGo o n (i + (row :: pre).length)
            (seenAfter (seenAfter seen [row]) pre) post with
        | error m => rfl
        | ok t2 =>
          obtain ⟨v2, e2, w2⟩ := t2
          simp
    | accepted vr warns tid =>
      rw [ih (i + 1) (seenAfter seen [row]), hlen]
      cases h1 : validateGo o n (i + 1) (seenAfter seen [row]) pre with
      | error m => rfl
      | ok t1 =>
        obtain ⟨v1, e1, w1⟩ := t1
        cases h2 : validateGo o n (i + (row :: pre).length)
            (seenAfter (seenAfter seen [row]) pre) post with
        | error m => rfl
        | ok t2 =>
          obtain ⟨v2, e2, w2⟩ := t2
          simp

/-! ## C2 — duplicate handling within one batch -/

/-- C2: rows are processed in input order; a row whose (truthy)
identifier already occurred in an earlier row of the same batch is
rejected with the duplicate-in-batch error naming that identifier and
tagged with its 1-based index, and the valid output never carries two
rows with the same identifier (the first occurrence is the only one
that can survive).  A row with a missing identifier is rejected with
the index-tagged missing-`transactionId` error and leaves the
seen-identifier set unchanged. -/
theorem validate_duplicate_batch (o n : Int) (pre post : List NormRow)
    (row : NormRow) (tid : String)
    (htid : truthy row.transaction_id = some tid)
    (hdup : tid ∈ seenIds pre) :
    (∀ v e w, validate_transactions o n (pre ++ row :: post) = .ok (v, e, w) →
       (tagOf (pre.length + 1) ++ ":" ++ tid ++
         ": transactionId duplicado en el batch") ∈ e ∧
       (validTids v).Nodup) ∧
    (∀ (i : Nat) (seen : List String) (r2 : NormRow),
       truthy r2.transaction_id = none →
       checkRow o n i seen r2 =
         .rejected (tagOf i ++ ": falta 'transactionId'") [] ∧
       seenAfter seen [r2] = seen) := by
  constructor
  · intro v e w hok
    rw [validate_transactions] at hok
    have hnd := validateGo_nodup o n (pre ++ row :: post) 1 [] v e w hok
    refine ⟨?_, hnd.1⟩
    rw [validateGo_append o n (row :: post) pre 1 [], Nat.add_comm 1 pre.length]
      at hok
    cases h1 : validateGo o n 1 [] pre with
    | error m => rw [h1] at hok; simp at hok
    | ok t1 =>
      obtain ⟨v1, e1, w1⟩ := t1
      rw [h1] at hok
      have hmem : tid ∈ seenAfter [] pre :=
        (mem_seenAfter pre [] tid).mpr (Or.inr hdup)
      have hcr : checkRow o n (pre.length + 1) (seenAfter [] pre) row =
          .rejected (tagOf (pre.length + 1) ++ ":" ++ tid ++
            ": transactionId duplicado en el batch") [] := by
        simp [checkRow, htid, hmem]
      rw [validateGo_cons, hcr] at hok
      cases h2 : validateGo o n (pre.length + 1 + 1)
          (seenAfter (seenAfter [] pre) [row]) post with
      | error m => rw [h2] at hok; simp at hok
      | ok t2 =>
        obtain ⟨v2, e2, w2⟩ := t2
        rw [h2] at hok
        injection hok with h'
        injection h' with hv hrest
        injection hrest with he hw
        subst he
        exact List.mem_append_right e1 (List.mem_cons_self _ _)
  · intro i seen r2 h2
    exact ⟨by simp [checkRow, h2], by simp [seenAfter, h2]⟩

theorem validate_duplicate_batch_witness :
    ("item[2]:tx-1: transactionId duplicado en el batch" ∈
        ["item[2]:tx-1: transactionId duplicado en el batch"]) ∧
      (validTids [mkValidRow dupRowA 1756556100000000]).Nodup :=
  (validate_duplicate_batch 0 oldNow10 [dupRowA] [] dupRowB "tx-1"
      (by rfl) (by decide)).1
    [mkValidRow dupRowA 1756556100000000]
    ["item[2]:tx-1: transactionId duplicado en el batch"] [] (by rfl)

/-! ## C5 — future-date rule boundary -/

/-- C5: a record whose parsed posted timestamp is strictly greater than
the current time is rejected with the future-dated error; a record
whose parsed posted timestamp equals the current time exactly is not
rejected by this rule and, absent other failures (an invalid currency
code, or the NaN-refund exception), is accepted. -/
theorem future_date_boundary (o now posted : Int) (row : NormRow)
    (tid pdr : String)
    (htid : truthy row.transaction_id = some tid)
    (hpdr : truthy row.posted_date_raw = some pdr)
    (hparse : parse_iso_z o pdr = some posted) :
    (posted > now → validate_transactions o now [row] =
       .ok ([], [tagOf 1 ++ ":" ++ tid ++ ": 'postedDate' en el futuro: " ++ pdr],
         [])) ∧
    (posted = now →
     (∀ c, row.currency_code = some c → c = "" ∨ ISO_4217_RE_match c = true) →
     pyLower ((truthy row.type).getD "") ≠ "refund" →
     validate_transactions o now [row] = .ok ([mkValidRow row now], [], [])) := by
  constructor
  · intro hgt
    have hcr : checkRow o now 1 [] row =
        .rejected (tagOf 1 ++ ":" ++ tid ++ ": 'postedDate' en el futuro: " ++ pdr)
          [] := by
      simp [checkRow, htid, hpdr, hparse, hgt]
    rw [validate_transactions, validateGo_cons, hcr, validateGo_nil]
    rfl
  · intro heq hcur hty
    subst heq
    have hnfut : ¬ posted > posted := lt_irrefl posted
    have hold : ¬ Int.fdiv (posted - posted) usPerDay > 370 := by
      rw [sub_self, Int.zero_fdiv]
      omega
    have hcr : checkRow o posted 1 [] row =
        .accepted (mkValidRow row posted) [] tid := by
      cases hcc : row.currency_code with
      | none =>
        cases ha : row.amount with
        | none => simp [checkRow, htid, hpdr, hparse, hnfut, hold, hcc, ha]
        | some a => simp [checkRow, htid, hpdr, hparse, hnfut, hold, hcc, ha, hty]
      | some c =>
        have hbad : ¬ (¬ c = "" ∧ ISO_4217_RE_match c = false) := by
          rcases hcur c hcc with h | h <;> simp [h]
        cases ha : row.amount with
        | none =>
          simp [checkRow, htid, hpdr, hparse, hnfut, hold, hcc, ha, hbad]
        | some a =>
          simp [checkRow, htid, hpdr, hparse, hnfut, hold, hcc, ha, hbad, hty]
    rw [validate_transactions, validateGo_cons, hcr, validateGo_nil]
    rfl

theorem future_date_boundary_witness :
    validate_transactions 0 86400000000 [boundaryRow] =
      .ok ([mkValidRow boundaryRow 86400000000], [], []) :=
  (future_date_boundary 0 86400000000 86400000000 boundaryRow "tx-5"
      "1970-01-02T00:00:00Z" (by rfl) (by rfl) (by rfl)).2 rfl
    (fun c hc => by
      rw [show boundaryRow.currency_code = some "USD" from rfl] at hc
      injection hc with hc'
      subst hc'
      exact Or.inr (by decide))
    (by decide)

/-! ## C6 — currency-code rule -/

/-- C6: a record with a present (non-empty) currency code that passed
the identifier and date checks is rejected with the invalid-currency
error exactly when the code fails the `^[A-Z]{3}$` pattern, and
accepted (absent other failures) when it matches; in particular `"us"`
and `"USDX"` fail the pattern while `"USD"` passes it. -/
theorem currency_code_rule (o now posted : Int) (row : NormRow)
    (tid pdr c : String)
    (htid : truthy row.transaction_id = some tid)
    (hpdr : truthy row.posted_date_raw = some pdr)
    (hparse : parse_iso_z o pdr = some posted)
    (hle : ¬ posted > now)
    (hold : ¬ Int.fdiv (now - posted) usPerDay > 370)
    (hcur : row.currency_code = some c) (hc : c ≠ "")
    (hty : pyLower ((truthy row.type).getD "") ≠ "refund") :
    (ISO_4217_RE_match c = false →
       validate_transactions o now [row] =
         .ok ([], [tagOf 1 ++ ":" ++ tid ++ ": currency_code inválido: " ++ c],
           [])) ∧
    (ISO_4217_RE_match c = true →
       validate_transactions o now [row] = .ok ([mkValidRow row posted], [], [])) ∧
    ISO_4217_RE_match "USD" = true ∧
    ISO_4217_RE_match "us" = false ∧
    ISO_4217_RE_match "USDX" = false := by
  refine ⟨?_, ?_, by decide, by decide, by decide⟩
  · intro hmatch
    have hne : ¬ c = "" := hc
    have hcr : checkRow o now 1 [] row =
        .rejected (tagOf 1 ++ ":" ++ tid ++ ": currency_code inválido: " ++ c)
          [] := by
      simp [checkRow, htid, hpdr, hparse, hle, hold, hcur, hne, hmatch]
    rw [validate_transactions, validateGo_cons, hcr, validateGo_nil]
    rfl
  · intro hmatch
    have hbad : ¬ (¬ c = "" ∧ ISO_4217_RE_match c = false) := by simp [hmatch]
    have hcr : checkRow o now 1 [] row =
        .accepted (mkValidRow row posted) [] tid := by
      cases ha : row.amount with
      | none =>
        simp [checkRow, htid, hpdr, hparse, hle, hold, hcur, ha, hbad]
      | some a =>
        simp [checkRow, htid, hpdr, hparse, hle, hold, hcur, ha, hbad, hty]
    rw [validate_transactions, validateGo_cons, hcr, validateGo_nil]
    rfl

theorem currency_code_rule_witness :
    validate_transactions 0 oldNow10 [currencyRow] =
      .ok ([], ["item[1]:tx-6: currency_code inválido: usd"], []) :=
  (currency_code_rule 0 oldNow10 1756556100000000 currencyRow "tx-6"
      "2025-08-30T12:15:00Z" "usd" (by rfl) (by rfl) (by rfl) (by decide)
      (by decide) (by rfl) (by decide) (by decide)).1 (by decide)

end Spapi
